import Mathlib

/-!
Shallow embedding of the flood-monitoring dashboard (src/app.py) of the
est_miraflores repository, centred on the risk-prediction model-training
pipeline: the data loader `load_data`, and the training entry point
`show_model_training` (dataset assembly by left join, schema validation,
numeric coercion, row dropping, train/test evaluation, 5-fold cross
validation, grid search over RandomForest hyperparameters, and the
feature-importance report).

Modelling conventions:
* pandas cells are the inductive `Cell`: `Cell.num q` is a value that
  `pd.to_numeric` parses to the rational `q` (numbers and numeric strings),
  `Cell.date d` is a value that `pd.to_datetime` parses (date strings,
  timestamps), `Cell.str s` is a string parseable as neither, and
  `Cell.null` is a missing value (None / NaN / NaT).
* a DataFrame is a `Table`: a list of column names plus a list of rows,
  each row a list of cells positionally aligned with the columns.
* the sklearn estimators are parameters of the embedding: a `FitFn` maps
  hyperparameters, a seed, and training data to a predictor, and a `PermFn`
  is the seeded shuffling permutation used by `train_test_split`.  Both are
  Lean functions, i.e. deterministic in (seed, data), which is exactly
  sklearn's documented contract for a fixed `random_state`; the optional
  seed is modelled by `Option.getD` against an ambient RNG state `rng`.
* exact rational arithmetic stands in for floating point; RMSE, which the
  code displays, is the real square root of the rational MSE the embedding
  stores.
-/

namespace EstMiraflores

/-- A pandas cell value, classified by what the coercion functions of the
source can do with it (see the module docstring). -/
inductive Cell where
  | num (q : ℚ)
  | date (d : ℤ)
  | str (s : String)
  | null
deriving DecidableEq, Repr

/-- A DataFrame: column names plus positional rows. -/
structure Table where
  cols : List String
  rows : List (List Cell)
deriving DecidableEq, Repr

/-- A rectangular table: every row has exactly one cell per column.
Tables built by pandas from a list of records always satisfy this. -/
def Table.WF (t : Table) : Prop := ∀ r ∈ t.rows, r.length = t.cols.length

instance (t : Table) : Decidable t.WF := by
  unfold Table.WF; infer_instance

/-- The empty DataFrame returned by the except-branch of load_data. -/
def Table.empty : Table := ⟨[], []⟩

/-- Reading column c of a row, as df[c] does for the ith row: position of
the first occurrence of the name (missing name yields null; in the source a
missing column raises instead, but every use below is guarded). -/
def cellAt (cols : List String) (row : List Cell) (c : String) : Cell :=
  row.getD (List.indexOf c cols) Cell.null

/-- Lower-casing of one string, as pandas .str.lower() does on column
names (structurally recursive restatement of String.toLower, which is
defined by well-founded recursion and therefore does not evaluate inside
the kernel). -/
def lowerStr (s : String) : String := ⟨s.data.map Char.toLower⟩

/-- Lower-casing of all column names, df.columns = df.columns.str.lower(). -/
def lowerCols (t : Table) : Table :=
  ⟨t.cols.map lowerStr, t.rows⟩

/-- pd.to_numeric(value, errors=coerce) on one cell: numeric values pass
through, anything unparseable becomes missing instead of raising. -/
def toNumericCoerce : Cell → Cell
  | .num q => .num q
  | _ => .null

/-- pd.to_datetime(value, errors=coerce) on one cell: date-parseable values
pass through, anything unparseable becomes missing (NaT). -/
def toDatetimeCoerce : Cell → Cell
  | .date d => .date d
  | _ => .null

/-- Applying a cell function to every cell of one named column, as the
source's df[c] = f(df[c]) column assignments do. -/
def mapColumn (t : Table) (c : String) (f : Cell → Cell) : Table :=
  ⟨t.cols, t.rows.map (fun r =>
    r.mapIdx (fun i v => if t.cols.getD i "" = c then f v else v))⟩

/-- The loop of lines 288-289: pd.to_numeric(..., errors=coerce) applied to
every column whose name lies in the given subset. -/
def coerceNumericCols (t : Table) (subset : List String) : Table :=
  ⟨t.cols, t.rows.map (fun r =>
    r.mapIdx (fun i v =>
      if t.cols.getD i "" ∈ subset then toNumericCoerce v else v))⟩

/-- df.dropna(subset=...): keep exactly the rows with no missing value in
any of the subset columns. -/
def dropnaSubset (t : Table) (subset : List String) : Table :=
  ⟨t.cols, t.rows.filter (fun r =>
    subset.all (fun c => cellAt t.cols r c != Cell.null))⟩

/-- Column selection df[[c1, ..., ck]]: pandas raises KeyError naming every
requested column absent from the frame; otherwise it projects the rows onto
the requested columns in the requested order. -/
def selectColsE (t : Table) (cs : List String) : Except (List String) Table :=
  let missing := cs.filter (fun c => ¬ c ∈ t.cols)
  if missing.isEmpty then
    .ok ⟨cs, t.rows.map (fun r => cs.map (fun c => cellAt t.cols r c))⟩
  else
    .error missing

/-- df_left.merge(df_right, on=key, how=left): one output row per
(left row, matching right row) pair, and a single null-padded output row
for a left row with no match; overlapping non-key column names receive the
pandas suffixes.  Key cells are matched by plain equality (pandas matches
missing keys to missing keys). -/
def mergeLeft (l r : Table) (key : String) : Table :=
  let rOther := r.cols.filter (fun c => c ≠ key)
  let lcols := l.cols.map (fun c =>
    if c ≠ key ∧ c ∈ rOther then c ++ "_x" else c)
  let rcols := rOther.map (fun c =>
    if c ∈ l.cols then c ++ "_y" else c)
  let rows := l.rows.flatMap (fun lrow =>
    let k := cellAt l.cols lrow key
    let ms := r.rows.filter (fun rrow => cellAt r.cols rrow key == k)
    if ms.isEmpty then
      [lrow ++ rOther.map (fun _ => Cell.null)]
    else
      ms.map (fun rrow => lrow ++ rOther.map (fun c => cellAt r.cols rrow c)))
  ⟨lcols ++ rcols, rows⟩

/-- load_data (lines 31-42): a fetch failure yields an empty frame; on
success, when a fecha column is present its values are datetime-coerced and
the rows whose fecha did not parse are dropped. -/
def load_data (fetched : Except String Table) : Table :=
  match fetched with
  | .error _ => Table.empty
  | .ok df =>
      if "fecha" ∈ df.cols then
        dropnaSubset (mapColumn df "fecha" toDatetimeCoerce) ["fecha"]
      else
        df

/-- The five columns required by the model (line 281, in source order). -/
def requiredCols : List String :=
  ["nivel_precipitacion", "latitud", "longitud", "altitud", "riesgo_inundacion"]

/-- The geographic selection taken from puntos_inundacion (line 277). -/
def geoSelectCols : List String := ["id_punto", "latitud", "longitud", "altitud"]

/-- The four predictor columns of X (line 293, in source order). -/
def featureCols : List String :=
  ["nivel_precipitacion", "latitud", "longitud", "altitud"]

/-- The distinct failure exits of the assembly phase of
show_model_training. -/
inductive AsmErr where
  | missingNivel
  | missingIdPunto
  | keyError (missing : List String)
  | schemaError (missing : List String)
deriving DecidableEq, Repr

/-- Lines 262-278: clone the predictions, lower-case both column sets,
check nivel_precipitacion, check id_punto on both sides, select the
geographic columns from the points table (a pandas KeyError if any is
absent), and left-join them onto the predictions. -/
def assembleMerged (dfPred dfPuntos : Table) : Except AsmErr Table :=
  let dfModel := lowerCols dfPred
  let puntosL := lowerCols dfPuntos
  if ¬ "nivel_precipitacion" ∈ dfModel.cols then
    .error .missingNivel
  else if ¬ "id_punto" ∈ dfModel.cols ∨ ¬ "id_punto" ∈ puntosL.cols then
    .error .missingIdPunto
  else
    match selectColsE puntosL geoSelectCols with
    | .error ms => .error (.keyError ms)
    | .ok sel => .ok (mergeLeft dfModel sel "id_punto")

/-- Line 282: the required columns absent from the post-join frame, in
required-column order. -/
def missingRequired (t : Table) : List String :=
  requiredCols.filter (fun c => ¬ c ∈ t.cols)

/-- Lines 262-290, the whole dataset assembler: the merged frame, then the
all-missing-columns check of lines 281-285, then numeric coercion of every
required column and the drop of every row missing any required value. -/
def assemble (dfPred dfPuntos : Table) : Except AsmErr Table :=
  match assembleMerged dfPred dfPuntos with
  | .error e => .error e
  | .ok m =>
      if missingRequired m = [] then
        .ok (dropnaSubset (coerceNumericCols m requiredCols) requiredCols)
      else
        .error (.schemaError (missingRequired m))

/-- A fitted regressor, as the pipeline uses one: a function from a feature
vector to a predicted value. -/
abbrev Predictor := List ℚ → ℚ

/-- RandomForestRegressor hyperparameters touched by the source. -/
structure RFParams where
  n_estimators : Nat
  max_depth : Option Nat
  min_samples_split : Nat
deriving DecidableEq, Repr

/-- Defaults of RandomForestRegressor(random_state=42) (line 302). -/
def defaultRFParams : RFParams := ⟨100, none, 2⟩

/-- The estimator family: hyperparameters, a seed and training data to a
fitted predictor.  Being a Lean function, it is deterministic in its
arguments, which is sklearn's contract for a fixed random_state. -/
abbrev FitFn := RFParams → Nat → List (List ℚ) → List ℚ → Predictor

/-- The seeded shuffling permutation train_test_split draws its index
order from: effective seed and population size to an index list. -/
abbrev PermFn := Nat → Nat → List Nat

/-- Arithmetic mean (0 for the empty list, as a 0/0 division). -/
def meanQ (l : List ℚ) : ℚ := l.sum / l.length

/-- mean_squared_error: mean of the squared residuals. -/
def mseOf (yTrue yPred : List ℚ) : ℚ :=
  meanQ ((yTrue.zip yPred).map (fun p => (p.1 - p.2) ^ 2))

/-- r2_score: one minus residual sum of squares over total sum of
squares. -/
def r2Of (yTrue yPred : List ℚ) : ℚ :=
  let m := meanQ yTrue
  1 - ((yTrue.zip yPred).map (fun p => (p.1 - p.2) ^ 2)).sum /
      ((yTrue.map (fun v => (v - m) ^ 2)).sum)

/-- The held-out size of train_test_split(test_size=0.2): ceil(n / 5). -/
def nTestOf (n : Nat) : Nat := (n + 4) / 5

/-- Row selection by index list. -/
def selectRows (rows : List α) (idx : List Nat) : List α :=
  idx.filterMap (fun i => rows[i]?)

/-- train_test_split(X, y, test_size=0.2, random_state=rs): raises a
ValueError when either resulting set would be empty (n < 2); otherwise the
seeded permutation is split after its first ceil(n / 5) entries, giving
(train indices, test indices). -/
def trainTestSplitIdx (perm : PermFn) (randomState : Option Nat) (rng n : Nat) :
    Except Unit (List Nat × List Nat) :=
  let nTest := nTestOf n
  if nTest = 0 ∨ n - nTest = 0 then
    .error ()
  else
    let p := perm (randomState.getD rng) n
    .ok (p.drop nTest, p.take nTest)

/-- The split-phase results of lines 301-322: the split membership plus the
rational parts of the metric bundle (displayed RMSE values are the real
square roots of the stored MSEs). -/
structure SplitMetrics where
  trainIdx : List Nat
  testIdx : List Nat
  testMse : ℚ
  r2 : ℚ
  trainMse : ℚ
deriving DecidableEq, Repr

/-- Lines 301-307 and 318-319: split with random_state=42, fit a default
RandomForestRegressor(random_state=42) on the training part, and score the
held-out and training parts. -/
def evalTrainTest (perm : PermFn) (fit : FitFn) (rng : Nat)
    (X : List (List ℚ)) (y : List ℚ) : Except Unit SplitMetrics :=
  match trainTestSplitIdx perm (some 42) rng X.length with
  | .error e => .error e
  | .ok (tr, te) =>
      let model := fit defaultRFParams ((Option.some 42).getD rng)
        (selectRows X tr) (selectRows y tr)
      let yPred := (selectRows X te).map model
      let yTrainPred := (selectRows X tr).map model
      .ok ⟨tr, te,
        mseOf (selectRows y te) yPred,
        r2Of (selectRows y te) yPred,
        mseOf (selectRows y tr) yTrainPred⟩

/-- KFold fold sizes: the first n mod k folds get one extra row. -/
def foldSizes (n k : Nat) : List Nat :=
  (List.range k).map (fun i => n / k + if i < n % k then 1 else 0)

/-- Consecutive index blocks of the given sizes starting at s. -/
def blocks : Nat → List Nat → List (List Nat)
  | _, [] => []
  | s, a :: rest => List.range' s a :: blocks (s + a) rest

/-- The k test folds of an unshuffled KFold over n rows, as used by both
cross_val_score(cv=5) and GridSearchCV(cv=3). -/
def kfoldTests (n k : Nat) : List (List Nat) := blocks 0 (foldSizes n k)

/-- The training rows of fold i: every row index not in its test fold. -/
def kfoldTrain (n k i : Nat) : List Nat :=
  (List.range n).filter (fun j => ¬ j ∈ (kfoldTests n k).getD i [])

/-- Per-fold mean squared errors of k-fold cross-validation of the given
estimator configuration: fold i fits on its training rows and is scored on
its held-out rows.  The fold scores the source consumes are derived from
these (neg_root_mean_squared_error is minus the square root, and
neg_mean_squared_error is the negation). -/
def cvFoldMses (fit : FitFn) (p : RFParams) (seed k : Nat)
    (X : List (List ℚ)) (y : List ℚ) : List ℚ :=
  (List.range k).map (fun i =>
    let te := (kfoldTests X.length k).getD i []
    let tr := kfoldTrain X.length k i
    let model := fit p seed (selectRows X tr) (selectRows y tr)
    mseOf (selectRows y te) ((selectRows X te).map model))

/-- The parameter grid of lines 326-330, enumerated the way sklearn's
ParameterGrid does (alphabetical key order max_depth, min_samples_split,
n_estimators; the last key varies fastest). -/
def paramGrid : List RFParams :=
  [Option.some 5, Option.some 10, Option.none].flatMap (fun md =>
    [2, 5].flatMap (fun mss =>
      [100, 200].map (fun ne => ⟨ne, md, mss⟩)))

/-- GridSearchCV(cv=3, scoring=neg_mean_squared_error) score of one grid
cell: the mean over the 3 folds of minus the fold MSE. -/
def cvMeanNegMse (fit : FitFn) (p : RFParams)
    (X : List (List ℚ)) (y : List ℚ) : ℚ :=
  meanQ ((cvFoldMses fit p 42 3 X y).map Neg.neg)

/-- The index GridSearchCV selects: the first position attaining the
maximal (least negative) score, matching argmin over the rank array. -/
def bestIndex (l : List ℚ) : Nat := l.indexOf (l.max?.getD 0)

/-- What the grid search reports: the winning configuration and the score
of every evaluated cell, in grid order. -/
structure GridResult where
  best_params : RFParams
  scores : List ℚ
deriving DecidableEq, Repr

/-- Lines 332-333: a ValueError when fewer than cv=3 rows are supplied;
otherwise every grid cell is scored and the first best cell wins. -/
def gridSearch (fit : FitFn) (X : List (List ℚ)) (y : List ℚ) :
    Except Unit GridResult :=
  if X.length < 3 then
    .error ()
  else
    let scores := paramGrid.map (fun p => cvMeanNegMse fit p X y)
    .ok ⟨paramGrid.getD (bestIndex scores) defaultRFParams, scores⟩

/-- The grid search together with its refit best_estimator_ (refit=True is
the GridSearchCV default): the winning configuration fitted on the entire
supplied dataset. -/
def gridSearchFull (fit : FitFn) (X : List (List ℚ)) (y : List ℚ) :
    Except Unit (GridResult × Predictor) :=
  match gridSearch fit X y with
  | .error e => .error e
  | .ok g => .ok (g, fit g.best_params 42 X y)

/-- Numeric view of a cell (total; every use is on coerced, non-null
cells). -/
def cellNum : Cell → ℚ
  | .num q => q
  | _ => 0

/-- X = df_model[feature columns] (line 293). -/
def featuresOf (t : Table) : List (List ℚ) :=
  t.rows.map (fun r => featureCols.map (fun c => cellNum (cellAt t.cols r c)))

/-- y = df_model[riesgo_inundacion] (line 294). -/
def targetOf (t : Table) : List ℚ :=
  t.rows.map (fun r => cellNum (cellAt t.cols r "riesgo_inundacion"))

/-- Everything a completed training run reports (the ephemeral model
itself is not part of the report; its importances are read separately). -/
structure Report where
  dataset : Table
  split : SplitMetrics
  cvFoldMses5 : List ℚ
  best_params : RFParams
deriving DecidableEq, Repr

/-- The observable exits of show_model_training: the early insufficient
data warning, the assembly error messages, uncaught sklearn ValueErrors,
or a completed run. -/
inductive Outcome where
  | warnedInsufficient
  | errMissingNivel
  | errMissingIdPunto
  | keyError (missing : List String)
  | schemaError (missing : List String)
  | splitValueError
  | cvValueError
  | gridValueError
  | trained (r : Report)
deriving DecidableEq, Repr

/-- The computation show_model_training performs once both raw tables are
known to be nonempty (lines 261-341). -/
def trainOutcome (perm : PermFn) (fit : FitFn) (rng : Nat)
    (dfPred dfPuntos : Table) : Outcome :=
  match assemble dfPred dfPuntos with
  | .error .missingNivel => .errMissingNivel
  | .error .missingIdPunto => .errMissingIdPunto
  | .error (.keyError ms) => .keyError ms
  | .error (.schemaError ms) => .schemaError ms
  | .ok t =>
      let X := featuresOf t
      let y := targetOf t
      match evalTrainTest perm fit rng X y with
      | .error _ => .splitValueError
      | .ok sm =>
          if X.length < 5 then
            .cvValueError
          else
            match gridSearch fit X y with
            | .error _ => .gridValueError
            | .ok g => .trained ⟨t, sm, cvFoldMses fit defaultRFParams 42 5 X y,
                g.best_params⟩

/-- show_model_training (lines 254-341) as a state transformer on the two
module-level input tables: besides its outcome it returns the tables as the
rest of the script sees them afterwards.  df_predicciones is only copied
(line 262), but line 264 lower-cases the columns of the shared df_puntos in
place; the early empty-table return of lines 257-259 fires before that
mutation. -/
def show_model_training (perm : PermFn) (fit : FitFn) (rng : Nat)
    (dfPred dfPuntos : Table) : Outcome × Table × Table :=
  if dfPred.rows.isEmpty ∨ dfPuntos.rows.isEmpty then
    (.warnedInsufficient, dfPred, dfPuntos)
  else
    (trainOutcome perm fit rng dfPred dfPuntos, dfPred, lowerCols dfPuntos)

/-- Lines 339-341: pair the importances of the refit best model with the
feature names and sort ascending by importance, as the bar chart is fed. -/
def importanceReport (imps : List ℚ) : List (String × ℚ) :=
  (featureCols.zip imps).mergeSort (fun a b => a.2 ≤ b.2)

/-! ### Helper lemmas about the table operations -/

theorem coerceNumericCols_cols (t : Table) (s : List String) :
    (coerceNumericCols t s).cols = t.cols := rfl

theorem dropnaSubset_cols (t : Table) (s : List String) :
    (dropnaSubset t s).cols = t.cols := rfl

theorem mapColumn_cols (t : Table) (c : String) (f : Cell → Cell) :
    (mapColumn t c f).cols = t.cols := rfl

theorem mem_dropnaSubset (t : Table) (s : List String) (r : List Cell) :
    r ∈ (dropnaSubset t s).rows ↔
      r ∈ t.rows ∧ ∀ c ∈ s, cellAt t.cols r c ≠ Cell.null := by
  simp [dropnaSubset, List.mem_filter, List.all_eq_true]

theorem mem_coerceNumericCols (t : Table) (s : List String) (r : List Cell) :
    r ∈ (coerceNumericCols t s).rows ↔
      ∃ r0 ∈ t.rows,
        r = r0.mapIdx (fun i v =>
          if t.cols.getD i "" ∈ s then toNumericCoerce v else v) := by
  simp only [coerceNumericCols, List.mem_map]
  constructor
  · rintro ⟨r0, h0, h1⟩; exact ⟨r0, h0, h1.symm⟩
  · rintro ⟨r0, h0, h1⟩; exact ⟨r0, h0, h1.symm⟩

theorem mem_mapColumn (t : Table) (c : String) (f : Cell → Cell) (r : List Cell) :
    r ∈ (mapColumn t c f).rows ↔
      ∃ r0 ∈ t.rows,
        r = r0.mapIdx (fun i v => if t.cols.getD i "" = c then f v else v) := by
  simp only [mapColumn, List.mem_map]
  constructor
  · rintro ⟨r0, h0, h1⟩; exact ⟨r0, h0, h1.symm⟩
  · rintro ⟨r0, h0, h1⟩; exact ⟨r0, h0, h1.symm⟩

theorem cellAt_guarded_mapIdx (cols : List String) (row : List Cell)
    (c : String) (g : Cell → Cell) (p : String → Prop) [DecidablePred p]
    (hg : g Cell.null = Cell.null) (hc : c ∈ cols) (hp : p c) :
    cellAt cols (row.mapIdx (fun i v => if p (cols.getD i "") then g v else v)) c
      = g (cellAt cols row c) := by
  unfold cellAt
  have hidx : List.indexOf c cols < cols.length := List.indexOf_lt_length.2 hc
  by_cases h : List.indexOf c cols < row.length
  · have hlen : List.indexOf c cols <
        (row.mapIdx (fun i v => if p (cols.getD i "") then g v else v)).length := by
      simpa using h
    rw [List.getD_eq_getElem _ _ hlen, List.getD_eq_getElem _ _ h,
      List.getElem_mapIdx]
    have hname : cols.getD (List.indexOf c cols) "" = c := by
      rw [List.getD_eq_getElem _ _ hidx, List.getElem_indexOf hidx]
    rw [hname, if_pos hp]
  · have h1 : row.getD (List.indexOf c cols) Cell.null = Cell.null := by
      rw [List.getD_eq_getElem?_getD, List.getElem?_eq_none (by omega)]
      rfl
    have h2 : (row.mapIdx (fun i v => if p (cols.getD i "") then g v else v)).getD
        (List.indexOf c cols) Cell.null = Cell.null := by
      rw [List.getD_eq_getElem?_getD, List.getElem?_eq_none (by simpa using h)]
      rfl
    rw [h1, h2, hg]

theorem cellAt_guarded_mapIdx_skip (cols : List String) (row : List Cell)
    (c : String) (g : Cell → Cell) (p : String → Prop) [DecidablePred p]
    (hc : c ∈ cols) (hp : ¬ p c) :
    cellAt cols (row.mapIdx (fun i v => if p (cols.getD i "") then g v else v)) c
      = cellAt cols row c := by
  unfold cellAt
  have hidx : List.indexOf c cols < cols.length := List.indexOf_lt_length.2 hc
  by_cases h : List.indexOf c cols < row.length
  · have hlen : List.indexOf c cols <
        (row.mapIdx (fun i v => if p (cols.getD i "") then g v else v)).length := by
      simpa using h
    rw [List.getD_eq_getElem _ _ hlen, List.getD_eq_getElem _ _ h,
      List.getElem_mapIdx]
    have hname : cols.getD (List.indexOf c cols) "" = c := by
      rw [List.getD_eq_getElem _ _ hidx, List.getElem_indexOf hidx]
    rw [hname, if_neg hp]
  · have h1 : row.getD (List.indexOf c cols) Cell.null = Cell.null := by
      rw [List.getD_eq_getElem?_getD, List.getElem?_eq_none (by omega)]
      rfl
    have h2 : (row.mapIdx (fun i v => if p (cols.getD i "") then g v else v)).getD
        (List.indexOf c cols) Cell.null = Cell.null := by
      rw [List.getD_eq_getElem?_getD, List.getElem?_eq_none (by simpa using h)]
      rfl
    rw [h1, h2]

def exceptDecEq {ε α : Type} [DecidableEq ε] [DecidableEq α] :
    (a b : Except ε α) → Decidable (a = b)
  | .error x, .error y =>
      if h : x = y then .isTrue (by rw [h]) else .isFalse (fun hc => h (Except.error.inj hc))
  | .error _, .ok _ => .isFalse (fun hc => Except.noConfusion hc)
  | .ok _, .error _ => .isFalse (fun hc => Except.noConfusion hc)
  | .ok x, .ok y =>
      if h : x = y then .isTrue (by rw [h]) else .isFalse (fun hc => h (Except.ok.inj hc))

instance {ε α : Type} [DecidableEq ε] [DecidableEq α] : DecidableEq (Except ε α) :=
  exceptDecEq

theorem assemble_ok_eq (dfPred dfPuntos m : Table)
    (hm : assembleMerged dfPred dfPuntos = Except.ok m) :
    assemble dfPred dfPuntos =
      if missingRequired m = [] then
        Except.ok (dropnaSubset (coerceNumericCols m requiredCols) requiredCols)
      else
        Except.error (AsmErr.schemaError (missingRequired m)) := by
  unfold assemble
  rw [hm]

theorem append_ne_of_last (c z t : String) (ch : Char)
    (hz : z.data.getLast? = some ch) (ht : t.data.getLast? ≠ some ch) :
    c ++ z ≠ t := by
  intro h
  apply ht
  rw [← h, String.data_append, List.getLast?_append, hz]
  rfl

theorem indexOf_append_left {α : Type} [BEq α] (a : α) (l1 l2 : List α)
    (h : List.indexOf a l1 < l1.length) :
    List.indexOf a (l1 ++ l2) = List.indexOf a l1 := by
  induction l1 with
  | nil => simp at h
  | cons b bs ih =>
    rw [List.cons_append, List.indexOf_cons, List.indexOf_cons]
    cases hba : b == a with
    | true => rfl
    | false =>
      rw [List.indexOf_cons, hba] at h
      simp only [cond_false]
      rw [ih (by simpa using h)]

theorem indexOf_append_right {α : Type} [BEq α] [LawfulBEq α] (a : α) (l1 l2 : List α)
    (h : ¬ a ∈ l1) :
    List.indexOf a (l1 ++ l2) = l1.length + List.indexOf a l2 := by
  induction l1 with
  | nil => simp
  | cons b bs ih =>
    rw [List.cons_append, List.indexOf_cons]
    have hba : (b == a) = false := by
      simp only [beq_eq_false_iff_ne]
      intro hc
      exact h (by rw [hc]; exact List.mem_cons_self a bs)
    rw [hba]
    simp only [cond_false, List.length_cons]
    rw [ih (fun hc => h (List.mem_cons_of_mem b hc))]
    omega

theorem indexOf_map_eq (f : String → String) (a : String) (l : List String)
    (hf : ∀ x, f x = a ↔ x = a) :
    List.indexOf a (l.map f) = List.indexOf a l := by
  induction l with
  | nil => rfl
  | cons b bs ih =>
    rw [List.map_cons, List.indexOf_cons, List.indexOf_cons]
    have : (f b == a) = (b == a) := by
      cases hba : b == a with
      | true =>
        simp only [beq_iff_eq] at hba ⊢
        exact (hf b).2 hba
      | false =>
        simp only [beq_eq_false_iff_ne] at hba ⊢
        exact fun hc => hba ((hf b).1 hc)
    rw [this]
    cases hba : b == a with
    | true => rfl
    | false => simp only [cond_false]; rw [ih]

theorem mergeLeft_cols_eq (l r : Table) (key : String) :
    (mergeLeft l r key).cols
      = l.cols.map (fun c =>
          if c ≠ key ∧ c ∈ r.cols.filter (fun x => x ≠ key) then c ++ "_x" else c)
        ++ (r.cols.filter (fun x => x ≠ key)).map (fun c =>
          if c ∈ l.cols then c ++ "_y" else c) := rfl

theorem mergeLeft_rows_cases (l r : Table) (key : String) (mrow : List Cell)
    (h : mrow ∈ (mergeLeft l r key).rows) :
    ∃ lrow ∈ l.rows,
      (mrow = lrow ++ (r.cols.filter (fun x => x ≠ key)).map (fun _ => Cell.null)
        ∧ ∀ rrow ∈ r.rows, cellAt r.cols rrow key ≠ cellAt l.cols lrow key)
      ∨ (∃ rrow ∈ r.rows, cellAt r.cols rrow key = cellAt l.cols lrow key
          ∧ mrow = lrow ++ (r.cols.filter (fun x => x ≠ key)).map
              (fun c => cellAt r.cols rrow c)) := by
  simp only [mergeLeft, List.mem_flatMap] at h
  obtain ⟨lrow, hl, hmem⟩ := h
  refine ⟨lrow, hl, ?_⟩
  by_cases he : (r.rows.filter
      (fun rrow => cellAt r.cols rrow key == cellAt l.cols lrow key)).isEmpty
  · rw [if_pos he] at hmem
    left
    refine ⟨by simpa using hmem, ?_⟩
    intro rrow hr hc
    have hmf : rrow ∈ r.rows.filter
        (fun rrow => cellAt r.cols rrow key == cellAt l.cols lrow key) := by
      rw [List.mem_filter]
      exact ⟨hr, by simpa using hc⟩
    rw [List.isEmpty_iff] at he
    rw [he] at hmf
    exact absurd hmf (List.not_mem_nil rrow)
  · rw [if_neg he] at hmem
    right
    rw [List.mem_map] at hmem
    obtain ⟨rrow, hrf, hre⟩ := hmem
    rw [List.mem_filter] at hrf
    exact ⟨rrow, hrf.1, by simpa using hrf.2, hre.symm⟩

theorem selectColsE_ok_inv (t sel : Table) (cs : List String)
    (h : selectColsE t cs = Except.ok sel) :
    sel = ⟨cs, t.rows.map (fun r => cs.map (fun c => cellAt t.cols r c))⟩ := by
  unfold selectColsE at h
  by_cases hmiss : (cs.filter (fun c => ¬ c ∈ t.cols)).isEmpty
  · rw [if_pos hmiss] at h
    injection h with h
    exact h.symm
  · rw [if_neg hmiss] at h
    exact absurd h (by simp)

theorem assembleMerged_ok_inv (dfPred dfPuntos m : Table)
    (h : assembleMerged dfPred dfPuntos = Except.ok m) :
    "nivel_precipitacion" ∈ (lowerCols dfPred).cols
    ∧ "id_punto" ∈ (lowerCols dfPred).cols
    ∧ "id_punto" ∈ (lowerCols dfPuntos).cols
    ∧ ∃ sel, selectColsE (lowerCols dfPuntos) geoSelectCols = Except.ok sel
        ∧ m = mergeLeft (lowerCols dfPred) sel "id_punto" := by
  unfold assembleMerged at h
  by_cases h1 : "nivel_precipitacion" ∈ (lowerCols dfPred).cols
  · rw [if_neg (by simpa using h1)] at h
    by_cases h2 : ¬ "id_punto" ∈ (lowerCols dfPred).cols
        ∨ ¬ "id_punto" ∈ (lowerCols dfPuntos).cols
    · rw [if_pos h2] at h
      exact absurd h (by simp)
    · rw [if_neg h2] at h
      push_neg at h2
      cases hsel : selectColsE (lowerCols dfPuntos) geoSelectCols with
      | error ms => rw [hsel] at h; exact absurd h (by simp)
      | ok sel =>
        rw [hsel] at h
        injection h with h
        exact ⟨h1, h2.1, h2.2, sel, rfl, h.symm⟩
  · rw [if_pos (by simpa using h1)] at h
    exact absurd h (by simp)

/-! ### Claim theorems -/

/-- C10: at the data-loading boundary, a fetch failure yields an empty
table, and for a fetched table with a fecha column every returned row
carries a successfully parsed datetime in that column — rows whose date
value cannot be parsed are dropped before the table is returned, so the
training pipeline's input predictions exclude them. -/
theorem C10_load_data_drops_unparseable_dates (f : Except String Table) :
    (∀ e, f = Except.error e → load_data f = Table.empty)
    ∧ (∀ df, f = Except.ok df → "fecha" ∈ df.cols →
        (load_data f).cols = df.cols
        ∧ ∀ r ∈ (load_data f).rows, ∃ d, cellAt df.cols r "fecha" = Cell.date d) := by
  constructor
  · rintro e rfl; rfl
  · rintro df rfl hf
    have hld : load_data (Except.ok df)
        = dropnaSubset (mapColumn df "fecha" toDatetimeCoerce) ["fecha"] := by
      simp [load_data, hf]
    rw [hld]
    refine ⟨rfl, ?_⟩
    intro r hr
    rw [mem_dropnaSubset] at hr
    obtain ⟨hrm, hnn⟩ := hr
    rw [mem_mapColumn] at hrm
    obtain ⟨r0, hr0, rfl⟩ := hrm
    have heq := cellAt_guarded_mapIdx df.cols r0 "fecha" toDatetimeCoerce
      (fun x => x = "fecha") rfl hf rfl
    have hnn' : cellAt df.cols
        (r0.mapIdx (fun i v => if df.cols.getD i "" = "fecha" then toDatetimeCoerce v else v))
        "fecha" ≠ Cell.null := hnn "fecha" (by simp)
    rw [heq] at hnn'
    rcases hcell : cellAt df.cols r0 "fecha" with q | d | s | _ <;> rw [hcell] at hnn'
    · exact absurd rfl hnn'
    · exact ⟨d, by rw [heq, hcell]; rfl⟩
    · exact absurd rfl hnn'
    · exact absurd rfl hnn'

/-- A fetched predictions table for the C10 witness: one parseable date,
one unparseable date string, one missing date. -/
def dfFechaW : Table :=
  ⟨["fecha", "pp"],
   [[Cell.date 1, Cell.num 2], [Cell.str "bad", Cell.num 3], [Cell.null, Cell.num 4]]⟩

/-- Witness for C10 at a concrete fetched table. -/
theorem C10_witness :
    load_data (Except.ok dfFechaW) = ⟨["fecha", "pp"], [[Cell.date 1, Cell.num 2]]⟩
    ∧ (load_data (Except.ok dfFechaW)).cols = dfFechaW.cols := by
  refine ⟨by decide, ?_⟩
  exact ((C10_load_data_drops_unparseable_dates (Except.ok dfFechaW)).2 dfFechaW rfl
    (by decide)).1

/-- C1: every observation the pipeline fits on has all five required
fields present and numeric — the assembler numerically coerces the
required columns (unparseable values becoming missing rather than
raising), then drops, and never imputes, every row with a missing
required value, so each row of a successfully assembled dataset holds a
numeric cell in every required column and the surviving rows are a
sublist of the coerced post-join rows. -/
theorem C1_assembled_rows_all_numeric (dfPred dfPuntos t : Table)
    (h : assemble dfPred dfPuntos = Except.ok t) :
    (∀ row ∈ t.rows, ∀ c ∈ requiredCols, ∃ q, cellAt t.cols row c = Cell.num q)
    ∧ ∃ m, assembleMerged dfPred dfPuntos = Except.ok m
        ∧ t.cols = m.cols
        ∧ t.rows.Sublist (coerceNumericCols m requiredCols).rows := by
  cases hm : assembleMerged dfPred dfPuntos with
  | error e => unfold assemble at h; rw [hm] at h; exact absurd h (by simp)
  | ok m =>
    rw [assemble_ok_eq dfPred dfPuntos m hm] at h
    by_cases hmiss : missingRequired m = []
    · rw [if_pos hmiss] at h
      injection h with h
      subst h
      constructor
      · intro row hrow c hcreq
        rw [mem_dropnaSubset] at hrow
        obtain ⟨hrowc, hnn⟩ := hrow
        rw [mem_coerceNumericCols] at hrowc
        obtain ⟨r0, hr0, rfl⟩ := hrowc
        have hcm : c ∈ m.cols := by
          by_contra hcmem
          have hmem : c ∈ missingRequired m := by
            simp [missingRequired, hcreq, hcmem]
          rw [hmiss] at hmem
          exact absurd hmem (List.not_mem_nil c)
        have heq := cellAt_guarded_mapIdx m.cols r0 c toNumericCoerce
          (fun x => x ∈ requiredCols) rfl hcm hcreq
        have hnn' := hnn c hcreq
        rw [coerceNumericCols_cols] at hnn'
        rw [heq] at hnn'
        rcases hcell : cellAt m.cols r0 c with q | d | s | _ <;> rw [hcell] at hnn'
        · exact ⟨q, by rw [dropnaSubset_cols, coerceNumericCols_cols, heq, hcell]; rfl⟩
        · exact absurd rfl hnn'
        · exact absurd rfl hnn'
        · exact absurd rfl hnn'
      · exact ⟨m, rfl, rfl, List.filter_sublist _⟩
    · rw [if_neg hmiss] at h
      exact absurd h (by simp)

/-- Concrete predictions table for assembler witnesses: the second row has
an uncoercible precipitation value. -/
def dfPredW : Table :=
  ⟨["id_punto", "nivel_precipitacion", "riesgo_inundacion"],
   [[Cell.num 1, Cell.num 5, Cell.num 1],
    [Cell.num 2, Cell.str "n/a", Cell.num 3]]⟩

/-- Concrete point-catalog table for assembler witnesses, with upper-case
column names that line 264 lower-cases. -/
def dfPuntosW : Table :=
  ⟨["ID_PUNTO", "LATITUD", "LONGITUD", "ALTITUD"],
   [[Cell.num 1, Cell.num (-5), Cell.num (-80), Cell.num 30]]⟩

/-- The dataset assembled from the witness tables: only the first
prediction row survives (the second has no catalog match and an
uncoercible precipitation value). -/
def tW : Table :=
  ⟨["id_punto", "nivel_precipitacion", "riesgo_inundacion",
    "latitud", "longitud", "altitud"],
   [[Cell.num 1, Cell.num 5, Cell.num 1, Cell.num (-5), Cell.num (-80), Cell.num 30]]⟩

/-- Witness for C1 at the concrete assembler input. -/
theorem C1_witness :
    assemble dfPredW dfPuntosW = Except.ok tW
    ∧ ∃ q, cellAt tW.cols
        [Cell.num 1, Cell.num 5, Cell.num 1, Cell.num (-5), Cell.num (-80), Cell.num 30]
        "latitud" = Cell.num q := by
  refine ⟨by decide, ?_⟩
  exact (C1_assembled_rows_all_numeric dfPredW dfPuntosW tW (by decide)).1
    _ (by decide) "latitud" (by decide)

/-- C6: when required columns are absent after the join, the assembler
fails with the schema error carrying the complete duplicate-free list of
the missing required names — membership in the reported list is exactly
"required and absent post-join", never just the first missing name. -/
theorem C6_schema_error_lists_all_missing (dfPred dfPuntos m : Table)
    (hm : assembleMerged dfPred dfPuntos = Except.ok m) :
    (∀ ms, assemble dfPred dfPuntos = Except.error (AsmErr.schemaError ms) →
      ms.Nodup ∧ ∀ c, (c ∈ ms ↔ c ∈ requiredCols ∧ ¬ c ∈ m.cols))
    ∧ ((∃ c ∈ requiredCols, ¬ c ∈ m.cols) →
        ∃ ms, assemble dfPred dfPuntos = Except.error (AsmErr.schemaError ms)
          ∧ ms ≠ []) := by
  rw [assemble_ok_eq dfPred dfPuntos m hm]
  by_cases hmiss : missingRequired m = []
  · rw [if_pos hmiss]
    constructor
    · intro ms h
      exact absurd h (by simp)
    · rintro ⟨c, hcr, hcm⟩
      exfalso
      have hmem : c ∈ missingRequired m := by simp [missingRequired, hcr, hcm]
      rw [hmiss] at hmem
      exact absurd hmem (List.not_mem_nil c)
  · rw [if_neg hmiss]
    constructor
    · intro ms h
      have hms : missingRequired m = ms := by
        simpa using h
      subst hms
      refine ⟨List.Nodup.filter _ (by decide), ?_⟩
      intro c
      simp [missingRequired, List.mem_filter]
    · exact fun h2 => ⟨missingRequired m, rfl, hmiss⟩

/-- Predictions table lacking the target column, for the C6 witness. -/
def dfPredNoRiskW : Table :=
  ⟨["id_punto", "nivel_precipitacion"], [[Cell.num 1, Cell.num 2]]⟩

/-- The post-join frame of the C6 witness input. -/
def mNoRiskW : Table :=
  ⟨["id_punto", "nivel_precipitacion", "latitud", "longitud", "altitud"],
   [[Cell.num 1, Cell.num 2, Cell.num (-5), Cell.num (-80), Cell.num 30]]⟩

/-- Witness for C6 at a concrete input missing riesgo_inundacion. -/
theorem C6_witness :
    assemble dfPredNoRiskW dfPuntosW
      = Except.error (AsmErr.schemaError ["riesgo_inundacion"])
    ∧ ("riesgo_inundacion" ∈ ["riesgo_inundacion"]
        ↔ "riesgo_inundacion" ∈ requiredCols ∧ ¬ "riesgo_inundacion" ∈ mNoRiskW.cols) := by
  refine ⟨by decide, ?_⟩
  exact ((C6_schema_error_lists_all_missing dfPredNoRiskW dfPuntosW mNoRiskW
    (by decide)).1 ["riesgo_inundacion"] (by decide)).2 "riesgo_inundacion"

/-- The three geographic columns the left join brings in. -/
def geoTail : List String := ["latitud", "longitud", "altitud"]

theorem geo_suffix_x_ne (c tgt : String) (htgt : tgt.data.getLast? ≠ some 'x') :
    c ++ "_x" ≠ tgt :=
  append_ne_of_last c "_x" tgt 'x' (by decide) htgt

theorem geo_suffix_y_ne (c tgt : String) (htgt : tgt.data.getLast? ≠ some 'y') :
    c ++ "_y" ≠ tgt :=
  append_ne_of_last c "_y" tgt 'y' (by decide) htgt

theorem geoTail_not_mem_lcols (Lcols : List String) (tgt : String)
    (htgt : tgt ∈ geoTail) (hx : ∀ c : String, c ++ "_x" ≠ tgt) :
    ¬ tgt ∈ Lcols.map (fun c =>
        if c ≠ "id_punto" ∧ c ∈ geoTail then c ++ "_x" else c) := by
  intro hmem
  rw [List.mem_map] at hmem
  obtain ⟨c, hc, hfc⟩ := hmem
  by_cases hcond : c ≠ "id_punto" ∧ c ∈ geoTail
  · rw [if_pos hcond] at hfc
    exact hx c hfc
  · rw [if_neg hcond] at hfc
    subst hfc
    apply hcond
    refine ⟨fun he => ?_, htgt⟩
    rw [he] at htgt
    exact absurd htgt (by decide)

theorem geoTail_rcols_mem_inv (Lcols : List String) (tgt : String)
    (hy : ∀ c : String, c ++ "_y" ≠ tgt)
    (hmem : tgt ∈ geoTail.map (fun c => if c ∈ Lcols then c ++ "_y" else c)) :
    ¬ tgt ∈ Lcols := by
  rw [List.mem_map] at hmem
  obtain ⟨c, hc, hfc⟩ := hmem
  by_cases hcond : c ∈ Lcols
  · rw [if_pos hcond] at hfc
    exact absurd hfc (hy c)
  · rw [if_neg hcond] at hfc
    subst hfc
    exact hcond

/-- C2: join correctness — every row of a successfully assembled training
dataset carries the id_punto key of some row of the (lower-cased) point
catalog; a prediction row whose key matches no catalog row receives
missing geographic fields from the left join and is removed by the
completeness filter, so it never reaches training. -/
theorem C2_every_assembled_row_has_matching_point (dfPred dfPuntos t : Table)
    (hwf : dfPred.WF) (h : assemble dfPred dfPuntos = Except.ok t) :
    ∀ row ∈ t.rows, ∃ qrow ∈ (lowerCols dfPuntos).rows,
      cellAt (lowerCols dfPuntos).cols qrow "id_punto"
        = cellAt t.cols row "id_punto" := by
  cases hm : assembleMerged dfPred dfPuntos with
  | error e => unfold assemble at h; rw [hm] at h; exact absurd h (by simp)
  | ok m =>
  obtain ⟨hnp, hidL, hidQ, sel, hsel, hmerge⟩ := assembleMerged_ok_inv dfPred dfPuntos m hm
  have hselcols : sel.cols = geoSelectCols := by rw [selectColsE_ok_inv _ _ _ hsel]
  have hselrows : sel.rows = (lowerCols dfPuntos).rows.map
      (fun r => geoSelectCols.map (fun c => cellAt (lowerCols dfPuntos).cols r c)) := by
    rw [selectColsE_ok_inv _ _ _ hsel]
  rw [assemble_ok_eq dfPred dfPuntos m hm] at h
  by_cases hmiss : missingRequired m = []
  swap
  · rw [if_neg hmiss] at h; exact absurd h (by simp)
  rw [if_pos hmiss] at h
  injection h with h
  subst h
  subst hmerge
  have hfilter : geoSelectCols.filter (fun x => x ≠ "id_punto") = geoTail := by decide
  have hmcols : (mergeLeft (lowerCols dfPred) sel "id_punto").cols
      = (lowerCols dfPred).cols.map (fun c =>
          if c ≠ "id_punto" ∧ c ∈ geoTail then c ++ "_x" else c)
        ++ geoTail.map (fun c =>
          if c ∈ (lowerCols dfPred).cols then c ++ "_y" else c) := by
    rw [mergeLeft_cols_eq, hselcols, hfilter]
  have hreq_sub : ∀ c ∈ requiredCols,
      c ∈ (mergeLeft (lowerCols dfPred) sel "id_punto").cols := by
    intro c hcr
    by_contra hc
    have hmem : c ∈ missingRequired (mergeLeft (lowerCols dfPred) sel "id_punto") := by
      simp [missingRequired, hcr, hc]
    rw [hmiss] at hmem
    exact absurd hmem (List.not_mem_nil c)
  have hlat : "latitud" ∈ (mergeLeft (lowerCols dfPred) sel "id_punto").cols :=
    hreq_sub _ (by decide)
  have hlatlx : ¬ "latitud" ∈ (lowerCols dfPred).cols.map (fun c =>
      if c ≠ "id_punto" ∧ c ∈ geoTail then c ++ "_x" else c) :=
    geoTail_not_mem_lcols _ _ (by decide) (fun c => geo_suffix_x_ne c _ (by decide))
  have hlatr : "latitud" ∈ geoTail.map (fun c =>
      if c ∈ (lowerCols dfPred).cols then c ++ "_y" else c) := by
    rw [hmcols] at hlat
    rcases List.mem_append.1 hlat with h1 | h2
    · exact absurd h1 hlatlx
    · exact h2
  have hlatL : ¬ "latitud" ∈ (lowerCols dfPred).cols :=
    geoTail_rcols_mem_inv _ _ (fun c => geo_suffix_y_ne c _ (by decide)) hlatr
  have hidxlat : List.indexOf "latitud" (mergeLeft (lowerCols dfPred) sel "id_punto").cols
      = (lowerCols dfPred).cols.length := by
    rw [hmcols, indexOf_append_right _ _ _ hlatlx]
    have h0 : List.indexOf "latitud" (geoTail.map (fun c =>
        if c ∈ (lowerCols dfPred).cols then c ++ "_y" else c)) = 0 := by
      show List.indexOf "latitud"
        ((if "latitud" ∈ (lowerCols dfPred).cols then "latitud" ++ "_y" else "latitud") :: _) = 0
      rw [if_neg hlatL]
      exact List.indexOf_cons_self _ _
    rw [h0, List.length_map]
    omega
  intro row hrow
  rw [mem_dropnaSubset] at hrow
  obtain ⟨hrowc, hnn⟩ := hrow
  rw [mem_coerceNumericCols] at hrowc
  obtain ⟨mrow, hmr, rfl⟩ := hrowc
  obtain ⟨lrow, hlr, hcase⟩ := mergeLeft_rows_cases _ _ _ _ hmr
  rw [hselcols, hselrows, hfilter] at hcase
  have hlen : lrow.length = (lowerCols dfPred).cols.length := by
    have hl := hwf lrow hlr
    rw [hl]
    simp [lowerCols]
  rcases hcase with ⟨hrow_eq, hnomatch⟩ | ⟨rrow, hrr, hkey, hrow_eq⟩
  · exfalso
    have hnull : cellAt (mergeLeft (lowerCols dfPred) sel "id_punto").cols mrow "latitud"
        = Cell.null := by
      unfold cellAt
      rw [hidxlat, hrow_eq, List.getD_eq_getElem?_getD, List.getElem?_append]
      rw [if_neg (by rw [hlen]; exact Nat.lt_irrefl _), hlen, Nat.sub_self]
      rfl
    have hco : cellAt (mergeLeft (lowerCols dfPred) sel "id_punto").cols
        (mrow.mapIdx (fun i v =>
          if (mergeLeft (lowerCols dfPred) sel "id_punto").cols.getD i "" ∈ requiredCols
          then toNumericCoerce v else v)) "latitud"
        = toNumericCoerce (cellAt (mergeLeft (lowerCols dfPred) sel "id_punto").cols
            mrow "latitud") :=
      cellAt_guarded_mapIdx _ mrow "latitud" toNumericCoerce
        (fun x => x ∈ requiredCols) rfl hlat (by decide)
    have hnn' := hnn "latitud" (by decide)
    rw [coerceNumericCols_cols, hco, hnull] at hnn'
    exact hnn' rfl
  · obtain ⟨qrow, hq, hproj⟩ := List.mem_map.1 hrr
    have hkq : cellAt geoSelectCols rrow "id_punto"
        = cellAt (lowerCols dfPuntos).cols qrow "id_punto" := by
      rw [← hproj]
      have h0 : List.indexOf "id_punto" geoSelectCols = 0 := by decide
      show (geoSelectCols.map (fun c => cellAt (lowerCols dfPuntos).cols qrow c)).getD
        (List.indexOf "id_punto" geoSelectCols) Cell.null = _
      rw [h0]
      rfl
    have hkey2 : cellAt (lowerCols dfPuntos).cols qrow "id_punto"
        = cellAt (lowerCols dfPred).cols lrow "id_punto" := by
      rw [← hkq]
      exact hkey
    refine ⟨qrow, hq, ?_⟩
    have hfid : ∀ x : String,
        ((if x ≠ "id_punto" ∧ x ∈ geoTail then x ++ "_x" else x) = "id_punto")
          ↔ x = "id_punto" := by
      intro x
      constructor
      · intro hfx
        by_cases hcond : x ≠ "id_punto" ∧ x ∈ geoTail
        · rw [if_pos hcond] at hfx
          exact absurd hfx (geo_suffix_x_ne x _ (by decide))
        · rw [if_neg hcond] at hfx
          exact hfx
      · intro hx
        subst hx
        rw [if_neg (by simp)]
    have hidp_lcols : "id_punto" ∈ (lowerCols dfPred).cols.map (fun c =>
        if c ≠ "id_punto" ∧ c ∈ geoTail then c ++ "_x" else c) := by
      refine List.mem_map.2 ⟨"id_punto", hidL, ?_⟩
      rw [if_neg (by simp)]
    have hidm : "id_punto" ∈ (mergeLeft (lowerCols dfPred) sel "id_punto").cols := by
      rw [hmcols]
      exact List.mem_append.2 (Or.inl hidp_lcols)
    have hidxid : List.indexOf "id_punto" (mergeLeft (lowerCols dfPred) sel "id_punto").cols
        = List.indexOf "id_punto" (lowerCols dfPred).cols := by
      rw [hmcols]
      rw [indexOf_append_left _ _ _ ?_]
      · exact indexOf_map_eq _ "id_punto" _ hfid
      · rw [indexOf_map_eq _ "id_punto" _ hfid, List.length_map]
        exact List.indexOf_lt_length.2 hidL
    have hidlt : List.indexOf "id_punto" (lowerCols dfPred).cols < lrow.length := by
      rw [hlen]
      exact List.indexOf_lt_length.2 hidL
    have hcell_m : cellAt (mergeLeft (lowerCols dfPred) sel "id_punto").cols mrow "id_punto"
        = cellAt (lowerCols dfPred).cols lrow "id_punto" := by
      unfold cellAt
      rw [hidxid, hrow_eq, List.getD_append _ _ _ _ hidlt]
    have hskip : cellAt (mergeLeft (lowerCols dfPred) sel "id_punto").cols
        (mrow.mapIdx (fun i v =>
          if (mergeLeft (lowerCols dfPred) sel "id_punto").cols.getD i "" ∈ requiredCols
          then toNumericCoerce v else v)) "id_punto"
        = cellAt (mergeLeft (lowerCols dfPred) sel "id_punto").cols mrow "id_punto" :=
      cellAt_guarded_mapIdx_skip _ mrow "id_punto" toNumericCoerce
        (fun x => x ∈ requiredCols) hidm (by decide)
    rw [dropnaSubset_cols, coerceNumericCols_cols, hskip, hcell_m]
    exact hkey2

/-- Witness for C2 at the concrete assembler input: the surviving row's
key has a matching catalog row. -/
theorem C2_witness :
    dfPredW.WF
    ∧ ∃ qrow ∈ (lowerCols dfPuntosW).rows,
        cellAt (lowerCols dfPuntosW).cols qrow "id_punto"
          = cellAt tW.cols
              [Cell.num 1, Cell.num 5, Cell.num 1,
               Cell.num (-5), Cell.num (-80), Cell.num 30] "id_punto" := by
  refine ⟨by decide, ?_⟩
  exact C2_every_assembled_row_has_matching_point dfPredW dfPuntosW tW
    (by decide) (by decide) _ (by decide)

/-- The identity permutation, a concrete PermFn for witnesses. -/
def permId : PermFn := fun _ n => List.range n

/-- The constantly-zero estimator, a concrete FitFn for witnesses. -/
def zeroFit : FitFn := fun _ _ _ _ _ => 0

/-- C3: reproducibility — the train/test evaluator pins random_state=42
for both the split and the regressor, so its output (the split index
membership and every metric) does not depend on the ambient RNG state, and
two invocations on the same assembled dataset in the same order are
identical. -/
theorem C3_train_test_evaluator_deterministic (perm : PermFn) (fit : FitFn)
    (rng1 rng2 : Nat) (X1 X2 : List (List ℚ)) (y1 y2 : List ℚ)
    (hX : X1 = X2) (hy : y1 = y2) :
    evalTrainTest perm fit rng1 X1 y1 = evalTrainTest perm fit rng2 X2 y2 := by
  subst hX
  subst hy
  rfl

/-- Witness for C3 at a concrete dataset and two distinct RNG states. -/
theorem C3_witness :
    ([[(1 : ℚ), 2, 3, 4], [5, 6, 7, 8]] = [[(1 : ℚ), 2, 3, 4], [5, 6, 7, 8]])
    ∧ evalTrainTest permId zeroFit 0 [[(1 : ℚ), 2, 3, 4], [5, 6, 7, 8]] [(1 : ℚ), 0]
        = evalTrainTest permId zeroFit 99 [[(1 : ℚ), 2, 3, 4], [5, 6, 7, 8]] [(1 : ℚ), 0] :=
  ⟨rfl, C3_train_test_evaluator_deterministic permId zeroFit 0 99 _ _ _ _ rfl rfl⟩

theorem sum_map_neg {α : Type} [AddCommGroup α] (l : List α) :
    (l.map (fun x => -x)).sum = -l.sum := by
  induction l with
  | nil => simp
  | cons a rest ih => simp [ih]; exact add_comm _ _

theorem blocks_flatten (s : Nat) (sizes : List Nat) :
    (blocks s sizes).flatten = List.range' s sizes.sum := by
  induction sizes generalizing s with
  | nil => simp [blocks]
  | cons a rest ih =>
    simp only [blocks, List.flatten_cons, ih, List.sum_cons]
    have h := List.range'_append s a rest.sum 1
    simp only [one_mul] at h
    rw [Nat.add_comm rest.sum a] at h
    exact h

theorem blocks_length (s : Nat) (sizes : List Nat) :
    (blocks s sizes).length = sizes.length := by
  induction sizes generalizing s with
  | nil => rfl
  | cons a rest ih => simp [blocks, ih]

theorem blocks_nodup (s : Nat) (sizes : List Nat) :
    ∀ t ∈ blocks s sizes, t.Nodup := by
  induction sizes generalizing s with
  | nil => intro t ht; simp [blocks] at ht
  | cons a rest ih =>
    intro t ht
    simp only [blocks, List.mem_cons] at ht
    rcases ht with rfl | ht
    · exact List.nodup_range' _ _
    · exact ih _ t ht

theorem foldSizes_sum_five (n : Nat) : (foldSizes n 5).sum = n := by
  have h5 : List.range 5 = [0, 1, 2, 3, 4] := rfl
  rw [foldSizes, h5]
  simp only [List.map_cons, List.map_nil, List.sum_cons, List.sum_nil]
  split_ifs <;> omega

theorem kfoldTests_flatten (n : Nat) :
    (kfoldTests n 5).flatten = List.range n := by
  rw [kfoldTests, blocks_flatten, foldSizes_sum_five, List.range_eq_range']

theorem kfoldTests_length (n : Nat) : (kfoldTests n 5).length = 5 := by
  rw [kfoldTests, blocks_length]
  simp [foldSizes]

theorem countP_mem_eq_sum_count (j : Nat) (L : List (List Nat))
    (hnd : ∀ t ∈ L, t.Nodup) :
    List.countP (fun t => j ∈ t) L = (L.map (List.count j)).sum := by
  induction L with
  | nil => rfl
  | cons t rest ih =>
    rw [List.countP_cons, List.map_cons, List.sum_cons]
    rw [ih (fun x hx => hnd x (List.mem_cons_of_mem t hx))]
    by_cases hj : j ∈ t
    · have h1 : List.count j t = 1 :=
        List.count_eq_one_of_mem (hnd t (List.mem_cons_self t rest)) hj
      simp [hj, h1]
      omega
    · have h1 : List.count j t = 0 := List.count_eq_zero.2 hj
      simp [hj, h1]

theorem countP_getD_range (j : Nat) (L : List (List Nat)) :
    List.countP (fun i => j ∈ L.getD i []) (List.range L.length)
      = List.countP (fun t => j ∈ t) L := by
  induction L with
  | nil => rfl
  | cons t rest ih =>
    rw [List.length_cons, List.range_succ_eq_map, List.countP_cons, List.countP_map,
      List.countP_cons]
    have hcomp : ((fun i => decide (j ∈ (t :: rest).getD i [])) ∘ Nat.succ)
        = (fun i => decide (j ∈ rest.getD i [])) := rfl
    rw [hcomp, ih]
    rfl

theorem countP_add_countP_compl {α : Type} (p q : α → Bool) (L : List α)
    (h : ∀ a ∈ L, q a = !(p a)) :
    List.countP p L + List.countP q L = L.length := by
  induction L with
  | nil => rfl
  | cons a rest ih =>
    rw [List.countP_cons, List.countP_cons, h a (List.mem_cons_self a rest)]
    have hr := ih (fun x hx => h x (List.mem_cons_of_mem a hx))
    cases hp : p a <;> simp [hp] <;> omega

/-- C8: cross-validation coverage — the 5 unshuffled folds of the
cross-validator partition the row indices, so every row of the assembled
dataset is held out (scored) in exactly one fold and belongs to the
training part of exactly the other 4; the cross-validator produces one
fold score per fold and the displayed summary, minus the mean of the
negated per-fold root errors, is the mean RMSE across the 5 folds. -/
theorem C8_cross_validation_coverage (n j : Nat) (h5 : 5 ≤ n) (hj : j < n) :
    List.countP (fun i => j ∈ (kfoldTests n 5).getD i []) (List.range 5) = 1
    ∧ List.countP (fun i => j ∈ kfoldTrain n 5 i) (List.range 5) = 4
    ∧ ∀ (fit : FitFn) (p : RFParams) (X : List (List ℚ)) (y : List ℚ),
        (cvFoldMses fit p 42 5 X y).length = 5
        ∧ -(((cvFoldMses fit p 42 5 X y).map
              (fun (m : ℚ) => -(Real.sqrt (m : ℝ)))).sum / 5)
            = ((cvFoldMses fit p 42 5 X y).map
                (fun (m : ℚ) => Real.sqrt (m : ℝ))).sum / 5 := by
  have hlen : (kfoldTests n 5).length = 5 := kfoldTests_length n
  have hA : List.countP (fun i => j ∈ (kfoldTests n 5).getD i []) (List.range 5) = 1 := by
    have h1 := countP_getD_range j (kfoldTests n 5)
    rw [hlen] at h1
    rw [h1]
    rw [countP_mem_eq_sum_count j (kfoldTests n 5)
      (fun t ht => blocks_nodup 0 (foldSizes n 5) t ht)]
    rw [← List.count_flatten, kfoldTests_flatten]
    exact List.count_eq_one_of_mem (List.nodup_range n) (List.mem_range.2 hj)
  refine ⟨hA, ?_, ?_⟩
  · have hcompl := countP_add_countP_compl
      (fun i => decide (j ∈ (kfoldTests n 5).getD i []))
      (fun i => decide (j ∈ kfoldTrain n 5 i))
      (List.range 5)
      (by
        intro i hi
        simp [kfoldTrain, List.mem_filter, List.mem_range, hj])
    have h55 : (List.range 5).length = 5 := by simp
    rw [h55, hA] at hcompl
    omega
  · intro fit p X y
    refine ⟨by simp [cvFoldMses], ?_⟩
    have hm : ((cvFoldMses fit p 42 5 X y).map (fun (m : ℚ) => -(Real.sqrt (m : ℝ))))
        = ((cvFoldMses fit p 42 5 X y).map (fun (m : ℚ) => Real.sqrt (m : ℝ))).map
            (fun x => -x) := by
      rw [List.map_map]
      rfl
    rw [hm, sum_map_neg, neg_div, neg_neg]

/-- Witness for C8 at n = 5 rows and row index 0. -/
theorem C8_witness :
    (5 ≤ 5 ∧ 0 < 5)
    ∧ List.countP (fun i => 0 ∈ (kfoldTests 5 5).getD i []) (List.range 5) = 1
    ∧ List.countP (fun i => 0 ∈ kfoldTrain 5 5 i) (List.range 5) = 4 := by
  obtain ⟨h1, h2, _⟩ := C8_cross_validation_coverage 5 0 (by decide) (by decide)
  exact ⟨⟨by decide, by decide⟩, h1, h2⟩

theorem gridSearch_ok_inv (fit : FitFn) (X : List (List ℚ)) (y : List ℚ)
    (g : GridResult) (h : gridSearch fit X y = Except.ok g) :
    ¬ X.length < 3
    ∧ g = ⟨paramGrid.getD
            (bestIndex (paramGrid.map (fun p => cvMeanNegMse fit p X y)))
            defaultRFParams,
          paramGrid.map (fun p => cvMeanNegMse fit p X y)⟩ := by
  unfold gridSearch at h
  by_cases h3 : X.length < 3
  · rw [if_pos h3] at h
    exact absurd h (by simp)
  · rw [if_neg h3] at h
    injection h with h
    exact ⟨h3, h.symm⟩

theorem bestIndex_spec (l : List ℚ) (hne : l ≠ []) :
    bestIndex l < l.length ∧ ∀ x ∈ l, x ≤ l.getD (bestIndex l) 0 := by
  cases hmax : l.max? with
  | none =>
    rw [List.max?_eq_none_iff] at hmax
    exact absurd hmax hne
  | some mx =>
    have hmem : mx ∈ l := List.max?_mem max_choice hmax
    have hle : ∀ b ∈ l, b ≤ mx :=
      (List.max?_le_iff (fun a b c => max_le_iff) hmax).1 (le_refl mx)
    unfold bestIndex
    rw [hmax]
    simp only [Option.getD_some]
    have hidx : List.indexOf mx l < l.length := List.indexOf_lt_length.2 hmem
    refine ⟨hidx, ?_⟩
    intro x hx
    rw [List.getD_eq_getElem _ _ hidx, List.getElem_indexOf hidx]
    exact hle x hx

/-- C4: the hyperparameter search scores all 12 grid combinations (tree
count in 100 or 200, depth in 5, 10 or unlimited, minimum split in 2 or 5)
by 3-fold cross-validated negative MSE, selects a grid member whose score
is maximal (least negative), refits on the entire supplied dataset with
the winning combination, and returns both the winner and that refit
model. -/
theorem C4_grid_search_exhaustive_best_refit (fit : FitFn) (X : List (List ℚ))
    (y : List ℚ) (g : GridResult) (model : Predictor)
    (h : gridSearchFull fit X y = Except.ok (g, model)) :
    paramGrid.length = 12
    ∧ (∀ ne ∈ ([100, 200] : List Nat),
        ∀ md ∈ ([some 5, some 10, none] : List (Option Nat)),
        ∀ mss ∈ ([2, 5] : List Nat), (⟨ne, md, mss⟩ : RFParams) ∈ paramGrid)
    ∧ g.scores = paramGrid.map (fun p => cvMeanNegMse fit p X y)
    ∧ g.best_params ∈ paramGrid
    ∧ (∀ p ∈ paramGrid,
        cvMeanNegMse fit p X y ≤ cvMeanNegMse fit g.best_params X y)
    ∧ model = fit g.best_params 42 X y := by
  unfold gridSearchFull at h
  cases hg : gridSearch fit X y with
  | error e => rw [hg] at h; exact absurd h (by simp)
  | ok g0 =>
    rw [hg] at h
    injection h with h
    rw [Prod.mk.injEq] at h
    obtain ⟨hg0, hmodel⟩ := h
    obtain ⟨hne3, hg0eq⟩ := gridSearch_ok_inv fit X y g0 hg
    subst hg0
    subst hg0eq
    have hslen : (paramGrid.map (fun p => cvMeanNegMse fit p X y)).length = 12 := by
      rw [List.length_map]
      decide
    have hsne : (paramGrid.map (fun p => cvMeanNegMse fit p X y)) ≠ [] := by
      intro hc
      rw [hc] at hslen
      simp at hslen
    obtain ⟨hlt, hmax⟩ := bestIndex_spec _ hsne
    have hplen : bestIndex (paramGrid.map (fun p => cvMeanNegMse fit p X y))
        < paramGrid.length := by
      rw [← List.length_map paramGrid (fun p => cvMeanNegMse fit p X y)]
      exact hlt
    have hbestmem : paramGrid.getD
        (bestIndex (paramGrid.map (fun p => cvMeanNegMse fit p X y)))
        defaultRFParams ∈ paramGrid := by
      rw [List.getD_eq_getElem _ _ hplen]
      exact List.getElem_mem hplen
    have hval : (paramGrid.map (fun p => cvMeanNegMse fit p X y)).getD
        (bestIndex (paramGrid.map (fun p => cvMeanNegMse fit p X y))) 0
        = cvMeanNegMse fit
            (paramGrid.getD
              (bestIndex (paramGrid.map (fun p => cvMeanNegMse fit p X y)))
              defaultRFParams) X y := by
      rw [List.getD_eq_getElem _ _ hlt, List.getD_eq_getElem _ _ hplen,
        List.getElem_map]
    refine ⟨by decide, by decide, rfl, hbestmem, ?_, hmodel.symm⟩
    intro p hp
    have hx := hmax _ (List.mem_map.2 ⟨p, hp, rfl⟩)
    rw [hval] at hx
    exact hx

/-- Three-row zero dataset for the C4 witness. -/
def XW3 : List (List ℚ) := [[0, 0, 0, 0], [0, 0, 0, 0], [0, 0, 0, 0]]

/-- Target values for the C4 witness. -/
def yW3 : List ℚ := [0, 0, 0]

/-- The grid result of the C4 witness run, written as the selection the
search performs over its evaluated scores. -/
def gW4 : GridResult :=
  ⟨paramGrid.getD
      (bestIndex (paramGrid.map (fun p => cvMeanNegMse zeroFit p XW3 yW3)))
      defaultRFParams,
    paramGrid.map (fun p => cvMeanNegMse zeroFit p XW3 yW3)⟩

/-- The refit model of the C4 witness run. -/
def mW4 : Predictor := zeroFit gW4.best_params 42 XW3 yW3

/-- Witness for C4 at a concrete three-row dataset. -/
theorem C4_witness :
    gridSearchFull zeroFit XW3 yW3 = Except.ok (gW4, mW4)
    ∧ paramGrid.length = 12
    ∧ gW4.best_params ∈ paramGrid
    ∧ cvMeanNegMse zeroFit ⟨200, none, 5⟩ XW3 yW3
        ≤ cvMeanNegMse zeroFit gW4.best_params XW3 yW3 := by
  have hgs : gridSearch zeroFit XW3 yW3 = Except.ok gW4 := by
    unfold gridSearch
    rw [if_neg (by decide)]
    rfl
  have h : gridSearchFull zeroFit XW3 yW3 = Except.ok (gW4, mW4) := by
    unfold gridSearchFull
    rw [hgs]
    rfl
  obtain ⟨h12, hexh, hsc, hbm, hmax, hmod⟩ :=
    C4_grid_search_exhaustive_best_refit zeroFit XW3 yW3 gW4 mW4 h
  exact ⟨h, h12, hbm, hmax _ (by decide)⟩

/-- C7: the feature-importance reporter pairs one importance with each of
the four feature names and sorts the pairs ascending by importance;
given the tree-ensemble library contract on raw importances (one score
per feature, each non-negative, summing to one), the reported pairs keep
exactly the four feature names, every reported importance is
non-negative, and the reported importances still sum to one. -/
theorem C7_feature_importance_report (imps : List ℚ) (hlen : imps.length = 4)
    (hnn : ∀ x ∈ imps, 0 ≤ x) (hsum : imps.sum = 1) :
    (importanceReport imps).length = 4
    ∧ ((importanceReport imps).map Prod.fst).Perm featureCols
    ∧ List.Sorted (fun a b : String × ℚ => a.2 ≤ b.2) (importanceReport imps)
    ∧ ((importanceReport imps).map Prod.snd).sum = 1
    ∧ ∀ pr ∈ importanceReport imps, 0 ≤ pr.2 := by
  have hperm : (importanceReport imps).Perm (featureCols.zip imps) :=
    List.mergeSort_perm _ _
  have hflen : featureCols.length = 4 := rfl
  have hzlen : (featureCols.zip imps).length = 4 := by
    rw [List.length_zip, hflen, hlen]
    simp
  refine ⟨?_, ?_, ?_, ?_, ?_⟩
  · rw [hperm.length_eq, hzlen]
  · have h1 := hperm.map Prod.fst
    rw [List.map_fst_zip featureCols imps (by rw [hflen, hlen])] at h1
    exact h1
  · have hp := @List.sorted_mergeSort (String × ℚ)
      (fun a b => a.2 ≤ b.2)
      (fun a b c hab hbc => by
        simp only [decide_eq_true_eq] at hab hbc ⊢
        exact le_trans hab hbc)
      (fun a b => by
        simp only [Bool.or_eq_true, decide_eq_true_eq]
        exact le_total a.2 b.2)
      (featureCols.zip imps)
    refine List.Pairwise.imp ?_ hp
    intro a b hab
    simpa using hab
  · have h2 := (hperm.map Prod.snd).sum_eq
    rw [List.map_snd_zip featureCols imps (by rw [hflen, hlen])] at h2
    rw [h2, hsum]
  · intro pr hpr
    have hz : pr ∈ featureCols.zip imps := hperm.mem_iff.1 hpr
    obtain ⟨a, b⟩ := pr
    exact hnn b (List.of_mem_zip hz).2

/-- Raw importances for the C7 witness. -/
def impsW : List ℚ := [1, 0, 0, 0]

/-- Witness for C7 at a concrete importance vector. -/
theorem C7_witness :
    (impsW.length = 4 ∧ impsW.sum = 1)
    ∧ (importanceReport impsW).length = 4
    ∧ ((importanceReport impsW).map Prod.snd).sum = 1 := by
  obtain ⟨hl, _, _, hs, _⟩ := C7_feature_importance_report impsW
    (by decide) (by intro x hx; simp [impsW] at hx; rcases hx with rfl | rfl <;> decide)
    (by simp [impsW])
  exact ⟨⟨by decide, by simp [impsW]⟩, hl, hs⟩

theorem trainOutcome_ok_eq (perm : PermFn) (fit : FitFn) (rng : Nat)
    (dfPred dfPuntos t : Table) (h : assemble dfPred dfPuntos = Except.ok t) :
    trainOutcome perm fit rng dfPred dfPuntos =
      (match evalTrainTest perm fit rng (featuresOf t) (targetOf t) with
        | .error _ => Outcome.splitValueError
        | .ok sm =>
            if (featuresOf t).length < 5 then Outcome.cvValueError
            else
              match gridSearch fit (featuresOf t) (targetOf t) with
              | .error _ => Outcome.gridValueError
              | .ok g => Outcome.trained
                  ⟨t, sm,
                    cvFoldMses fit defaultRFParams 42 5 (featuresOf t) (targetOf t),
                    g.best_params⟩) := by
  unfold trainOutcome
  rw [h]

theorem trainTestSplitIdx_err (perm : PermFn) (rs : Option Nat) (rng n : Nat)
    (h : n < 2) : trainTestSplitIdx perm rs rng n = Except.error () := by
  unfold trainTestSplitIdx
  rw [if_pos ?_]
  simp only [nTestOf]
  omega

theorem evalTrainTest_err (perm : PermFn) (fit : FitFn) (rng : Nat)
    (X : List (List ℚ)) (y : List ℚ) (h : X.length < 2) :
    evalTrainTest perm fit rng X y = Except.error () := by
  unfold evalTrainTest
  rw [trainTestSplitIdx_err perm _ rng _ h]

/-- A predictions table whose single row has a join key matching no
catalog row. -/
def dfPredNoMatchW : Table :=
  ⟨["id_punto", "nivel_precipitacion", "riesgo_inundacion"],
   [[Cell.num 7, Cell.num 2, Cell.num 3]]⟩

/-- The assembled dataset of the C5 counterexample: all columns, zero
rows. -/
def tEmptyW : Table :=
  ⟨["id_punto", "nivel_precipitacion", "riesgo_inundacion",
    "latitud", "longitud", "altitud"], []⟩

/-- C5 counterexample: with nonempty raw predictions and points tables
whose join produces an empty assembled dataset, the pipeline reaches the
split and fails with the split library's ValueError — it does not signal
the insufficient-data condition, and no InsufficientDataError exists in
the code. -/
theorem C5_counterexample :
    dfPredNoMatchW.rows ≠ [] ∧ dfPuntosW.rows ≠ []
    ∧ assemble dfPredNoMatchW dfPuntosW = Except.ok tEmptyW
    ∧ tEmptyW.rows = []
    ∧ (show_model_training permId zeroFit 0 dfPredNoMatchW dfPuntosW).1
        = Outcome.splitValueError
    ∧ Outcome.splitValueError ≠ Outcome.warnedInsufficient := by
  refine ⟨by decide, by decide, by decide, rfl, by decide, by decide⟩

/-- C5 amended: when either fetched raw table is empty the pipeline
returns early with its insufficient-data warning before training; but
when both raw tables are nonempty and the assembled dataset has fewer
than 2 rows, the pipeline proceeds to the 80/20 split and the split's
ValueError escapes — the code defines no InsufficientDataError. -/
theorem C5_empty_input_behaviour (perm : PermFn) (fit : FitFn) (rng : Nat)
    (dfPred dfPuntos : Table) :
    (dfPred.rows = [] ∨ dfPuntos.rows = [] →
      (show_model_training perm fit rng dfPred dfPuntos).1
        = Outcome.warnedInsufficient)
    ∧ (∀ t, dfPred.rows ≠ [] → dfPuntos.rows ≠ [] →
        assemble dfPred dfPuntos = Except.ok t → t.rows.length < 2 →
        (show_model_training perm fit rng dfPred dfPuntos).1
          = Outcome.splitValueError) := by
  constructor
  · intro h
    rcases h with h | h <;> simp [show_model_training, h]
  · intro t h1 h2 hassm hlt
    have hX : (featuresOf t).length = t.rows.length := by simp [featuresOf]
    unfold show_model_training
    rw [if_neg (by simp [List.isEmpty_iff, h1, h2])]
    show trainOutcome perm fit rng dfPred dfPuntos = Outcome.splitValueError
    rw [trainOutcome_ok_eq perm fit rng dfPred dfPuntos t hassm]
    rw [evalTrainTest_err perm fit rng _ _ (by omega)]

/-- Witness for the amended C5 at concrete inputs: an empty predictions
table warns, and a nonempty input assembling to zero rows hits the split
error. -/
theorem C5_witness :
    (Table.empty.rows = [] ∨ dfPuntosW.rows = [])
    ∧ (show_model_training permId zeroFit 0 Table.empty dfPuntosW).1
        = Outcome.warnedInsufficient
    ∧ dfPredNoMatchW.rows ≠ []
    ∧ (show_model_training permId zeroFit 0 dfPredNoMatchW dfPuntosW).1
        = Outcome.splitValueError := by
  refine ⟨Or.inl rfl, ?_, by decide, ?_⟩
  · exact (C5_empty_input_behaviour permId zeroFit 0 Table.empty dfPuntosW).1
      (Or.inl rfl)
  · exact (C5_empty_input_behaviour permId zeroFit 0 dfPredNoMatchW dfPuntosW).2
      tEmptyW (by decide) (by decide) (by decide) (by decide)

/-- C9 counterexample: running the training view on a points table with
upper-case column names changes the shared module-level points table —
line 264 renames its columns in place — so the claim that both input
tables (including their column names) are left unchanged is false. -/
theorem C9_counterexample :
    (show_model_training permId zeroFit 0 dfPredW dfPuntosW).2.2 ≠ dfPuntosW
    ∧ (show_model_training permId zeroFit 0 dfPredW dfPuntosW).2.2.cols
        ≠ dfPuntosW.cols
    ∧ dfPredW.rows ≠ [] ∧ dfPuntosW.rows ≠ [] := by
  refine ⟨by decide, by decide, by decide, by decide⟩

/-- C9 amended: the predictions table is operated on through a copy and
is returned unchanged, and the points table's row data is unchanged, but
its column names are either untouched (empty-input early return) or
lower-cased in place by line 264. -/
theorem C9_frame_behaviour (perm : PermFn) (fit : FitFn) (rng : Nat)
    (dfPred dfPuntos : Table) :
    (show_model_training perm fit rng dfPred dfPuntos).2.1 = dfPred
    ∧ (show_model_training perm fit rng dfPred dfPuntos).2.2.rows = dfPuntos.rows
    ∧ ((show_model_training perm fit rng dfPred dfPuntos).2.2 = dfPuntos
        ∨ (show_model_training perm fit rng dfPred dfPuntos).2.2
            = lowerCols dfPuntos) := by
  unfold show_model_training
  by_cases h : dfPred.rows.isEmpty = true ∨ dfPuntos.rows.isEmpty = true
  · rw [if_pos h]
    exact ⟨rfl, rfl, Or.inl rfl⟩
  · rw [if_neg h]
    exact ⟨rfl, rfl, Or.inr rfl⟩

end EstMiraflores
